import Mathlib

/-!
Verification of the alert delivery / notification-queue subsystem of the
us-policywatch frontend.  The definitions below are a shallow embedding of
the relevant parts of `src/App.tsx` (localStorage-backed suppression store,
poll filter, toast-queue handlers) and `src/components/AlertsModal.tsx`
(the alerts-manager mute panel).  Browser time (`Date.now()`) is passed as
an explicit `now : Int` argument (epoch milliseconds); `window.localStorage`
is modelled as an association list threaded through each operation.
-/

namespace Policywatch

/-- The Persistent Key-Value Store (`window.localStorage`), modelled as an
association list from string keys to string values.  `lsGet`, `lsSet` and
`lsRemove` embed `getItem`, `setItem` and `removeItem`. -/
abbrev Store := List (String × String)

/-- Embeds `localStorage.getItem`. -/
def lsGet (st : Store) (k : String) : Option String :=
  (st.find? (fun p => p.1 == k)).map (fun p => p.2)

/-- Embeds `localStorage.removeItem`. -/
def lsRemove (st : Store) (k : String) : Store :=
  st.filter (fun p => p.1 != k)

/-- Embeds `localStorage.setItem` (overwrite the key's binding). -/
def lsSet (st : Store) (k : String) (v : String) : Store :=
  (k, v) :: lsRemove st k

/-- Numeric value of a decimal digit character. -/
def digitVal (c : Char) : Nat := c.toNat - '0'.toNat

/-- Accumulating parse of a string of decimal digit characters; `none` as
soon as a non-digit appears. -/
def decDigits : List Char → Nat → Option Nat
  | [], acc => some acc
  | c :: cs, acc =>
    if c.isDigit then decDigits cs (acc * 10 + digitVal c) else none

/-- Embeds the JavaScript `Number(raw)` coercion as used on the values this
program stores: optionally signed decimal-integer strings parse to their
value, and every other string is sent to `none`, which the callers below
treat exactly as they treat a non-finite number (`NaN`).  The program only
ever writes `String(n)` for an integer epoch-millisecond value `n`, so this
covers every value the code itself produces. -/
def jsNum (s : String) : Option Int :=
  match s.data with
  | [] => none
  | '-' :: cs =>
    match cs with
    | [] => none
    | _ => (decDigits cs 0).map (fun n => -(n : Int))
  | cs => (decDigits cs 0).map (fun n => (n : Int))

/-- Embeds `LS_UNTIL` from `src/App.tsx` (the identical arrow function also
appears in `src/components/AlertsModal.tsx`): the localStorage key of the
mute-until record of an alert. -/
def LS_UNTIL (alertId : String) : String := "pw_alert_mute_until_" ++ alertId

/-- Embeds `DISMISS_UNTIL` from `src/App.tsx`: the localStorage key of the
dismiss-until record of an alert. -/
def DISMISS_UNTIL (alertId : String) : String :=
  "pw_alert_dismiss_until_" ++ alertId

/-- Embeds `getMuteUntil` from `src/App.tsx`: read the mute-until record,
reporting `none` for a falsy, non-finite or non-positive raw value and
lazily deleting an entry whose expiry is at or before `now`. -/
def getMuteUntil (st : Store) (now : Int) (alertId : String) :
    Option Int × Store :=
  match lsGet st (LS_UNTIL alertId) with
  | none => (none, st)
  | some raw =>
    if raw = "" then (none, st)
    else
      match jsNum raw with
      | none => (none, st)
      | some n =>
        if n ≤ 0 then (none, st)
        else if n ≤ now then (none, lsRemove st (LS_UNTIL alertId))
        else (some n, st)

/-- Embeds `setMuteUntil` from `src/App.tsx`. -/
def setMuteUntil (st : Store) (alertId : String) (untilMs : Int) : Store :=
  lsSet st (LS_UNTIL alertId) (toString untilMs)

/-- Embeds `clearMuteUntil` from `src/App.tsx`. -/
def clearMuteUntil (st : Store) (alertId : String) : Store :=
  lsRemove st (LS_UNTIL alertId)

/-- Embeds `getTempDismissed` from `src/App.tsx`: same shape as
`getMuteUntil` over the dismiss-until key, reporting a boolean. -/
def getTempDismissed (st : Store) (now : Int) (alertId : String) :
    Bool × Store :=
  match lsGet st (DISMISS_UNTIL alertId) with
  | none => (false, st)
  | some raw =>
    if raw = "" then (false, st)
    else
      match jsNum raw with
      | none => (false, st)
      | some n =>
        if n ≤ 0 then (false, st)
        else if n ≤ now then (false, lsRemove st (DISMISS_UNTIL alertId))
        else (true, st)

/-- Embeds `setTempDismissed` from `src/App.tsx`: write a dismiss-until
record expiring `minutes` minutes after `now`. -/
def setTempDismissed (st : Store) (now : Int) (alertId : String)
    (minutes : Int) : Store :=
  lsSet st (DISMISS_UNTIL alertId) (toString (now + minutes * 60 * 1000))

/-- The five timed members of the `MuteChoice` union type
`"1h" | "8h" | "1d" | "1w" | "1mo"` (i.e. `Exclude<MuteChoice, "always">`). -/
inductive TimedChoice
  | h1
  | h8
  | d1
  | w1
  | mo1
deriving DecidableEq

/-- Embeds `choiceToUntil` from `src/App.tsx`; the source reads
`base = nowMs()` itself, here `base` is the explicit time argument. -/
def choiceToUntil (choice : TimedChoice) (base : Int) : Int :=
  match choice with
  | .h1 => base + 1 * (60 * 60 * 1000)
  | .h8 => base + 8 * (60 * 60 * 1000)
  | .d1 => base + 24 * (60 * 60 * 1000)
  | .w1 => base + 7 * 24 * (60 * 60 * 1000)
  | .mo1 => base + 30 * 24 * (60 * 60 * 1000)

/-- Embeds the separate, textually identical `choiceToUntil` copy in
`src/components/AlertsModal.tsx`. -/
def choiceToUntilModal (choice : TimedChoice) (base : Int) : Int :=
  match choice with
  | .h1 => base + 1 * (60 * 60 * 1000)
  | .h8 => base + 8 * (60 * 60 * 1000)
  | .d1 => base + 24 * (60 * 60 * 1000)
  | .w1 => base + 7 * 24 * (60 * 60 * 1000)
  | .mo1 => base + 30 * 24 * (60 * 60 * 1000)

/-- Embeds `isMuted` from `src/App.tsx`: server mute short-circuits (no
store read); otherwise a present mute-until record means muted. -/
def isMuted (st : Store) (now : Int) (alertId : String) (serverMuted : Bool) :
    Bool × Store :=
  if serverMuted then (true, st)
  else
    let r := getMuteUntil st now alertId
    (r.1.isSome, r.2)

/-- The projection of a polled notification object that this subsystem
reads: `n.alert.id`, `n.alert.muted` and `n.delivery.id`.  The optional
chaining `n?.alert?.id` in the source makes a missing object or field
indistinguishable from an absent id, hence `Option String`; `!!n.alert.muted`
coerces the flag to a boolean. -/
structure Notif where
  alertId : Option String
  alertMuted : Bool
  deliveryId : Option String
deriving DecidableEq

/-- JavaScript truthiness of an optionally-present string id: `undefined`,
`null` and the empty string are falsy. -/
def truthyId : Option String → Bool
  | none => false
  | some s => s != ""

/-- Embeds the `(notes || []).filter(...)` body of `run` in `src/App.tsx`,
threading the localStorage side effects (lazy deletions) of `isMuted` /
`getTempDismissed` left-to-right through the filter, exactly as
`Array.prototype.filter` evaluates its predicate.  A notification is
dropped when an id is falsy, when `isMuted` reports true (server flag
short-circuits before any store read), or when `getTempDismissed` reports
true. -/
def filterNotes : Store → Int → List Notif → List Notif × Store
  | st, _, [] => ([], st)
  | st, now, n :: rest =>
    if truthyId n.alertId && truthyId n.deliveryId then
      if n.alertMuted then filterNotes st now rest
      else
        let mu := getMuteUntil st now (n.alertId.getD "")
        if mu.1.isSome then filterNotes mu.2 now rest
        else
          let dis := getTempDismissed mu.2 now (n.alertId.getD "")
          if dis.1 then filterNotes dis.2 now rest
          else
            let r := filterNotes dis.2 now rest
            (n :: r.1, r.2)
    else filterNotes st now rest

/-- Embeds one execution of the poll task body `run` in `src/App.tsx`
after `pollAlerts()` resolved with `notes` (the `cancelled` early return is
modelled in `stepEv` below): filter the response, then inside
`setToastQueue` drop the survivors whose delivery id is already in the
previous queue and append the remainder; the boolean records whether
`playNotif()` was triggered (once per poll, only when something was
appended). -/
def run (st : Store) (now : Int) (prev : List Notif) (notes : List Notif) :
    List Notif × Store × Bool :=
  let f := filterNotes st now notes
  if f.1.isEmpty then (prev, f.2, false)
  else
    let prevIds := prev.map (fun x => x.deliveryId)
    let nextAdds := f.1.filter (fun x => !(prevIds.contains x.deliveryId))
    if nextAdds.isEmpty then (prev, f.2, false)
    else (prev ++ nextAdds, f.2, true)

/-- An alert row as served by the Alert Directory (`AlertDTO` in
`src/api.ts`), restricted to the fields this subsystem reads and writes. -/
structure Alert where
  id : String
  source_key : String
  statuses : List String
  categories : List String
  enabled : Bool
  muted : Bool
deriving DecidableEq

/-- The full-object body of an `updateAlert(alertId, {...})` call. -/
structure UpdateReq where
  target : String
  source_key : String
  statuses : List String
  categories : List String
  enabled : Bool
  muted : Bool
deriving DecidableEq

/-- A mutating network request issued by an action handler: an
acknowledgement-sink call (`ackDelivery`) or an alert-directory write
(`updateAlert`). -/
inductive NetReq
  | ack (deliveryId : String)
  | update (req : UpdateReq)
deriving DecidableEq

/-- The `MuteChoice` union type of the source. -/
inductive MuteChoice
  | timed (c : TimedChoice)
  | always
deriving DecidableEq

/-- Embeds `onMuteAlert` from `src/App.tsx`.  `dir` is the alert list that
`listAlerts()` returns; the result is the new localStorage state, the new
toast queue, and the mutating network requests issued.  For `"always"` the
handler looks the alert up and, when found, writes `muted: true` server
side and strips the alert's toasts; when the alert is not in the directory
it returns without touching the queue.  A timed choice writes the local
mute-until record and strips the alert's toasts, with no network write. -/
def onMuteAlert (dir : List Alert) (st : Store) (now : Int)
    (queue : List Notif) (alertId : String) (choice : MuteChoice) :
    Store × List Notif × List NetReq :=
  match choice with
  | .always =>
    match dir.find? (fun x => x.id == alertId) with
    | none => (st, queue, [])
    | some a =>
      (st, queue.filter (fun x => x.alertId != some alertId),
        [NetReq.update
          ⟨alertId, a.source_key, a.statuses, a.categories, a.enabled, true⟩])
  | .timed c =>
    (setMuteUntil st alertId (choiceToUntil c now),
      queue.filter (fun x => x.alertId != some alertId), [])

/-- Embeds `onCloseTemp` from `src/App.tsx`: write a 5-minute dismiss-until
record and strip the alert's toasts; no network request of any kind. -/
def onCloseTemp (st : Store) (now : Int) (queue : List Notif)
    (alertId : String) : Store × List Notif × List NetReq :=
  (setTempDismissed st now alertId 5,
    queue.filter (fun x => x.alertId != some alertId), [])

/-- Embeds `onGotIt` from `src/App.tsx`: `ackDelivery` is awaited inside
`try`, and the queue filter sits in the `finally` block, so it runs whether
the acknowledgement call succeeded (`ackOk = true`) or threw
(`ackOk = false`); the result does not consult `ackOk` at all.  The store
is untouched. -/
def onGotIt (st : Store) (queue : List Notif) (ackOk : Bool)
    (deliveryId : String) : Store × List Notif × List NetReq :=
  match ackOk with
  | true =>
    (st, queue.filter (fun x => x.deliveryId != some deliveryId),
      [NetReq.ack deliveryId])
  | false =>
    (st, queue.filter (fun x => x.deliveryId != some deliveryId),
      [NetReq.ack deliveryId])

/-- Embeds `applyMute` from `src/components/AlertsModal.tsx` (success
path).  `"always"` clears the local timer and writes `muted: true` server
side; a timed choice writes the local mute-until record and, only when the
row's server flag is currently set, writes `muted: false` server side. -/
def applyMute (st : Store) (now : Int) (a : Alert) (choice : MuteChoice) :
    Store × List NetReq :=
  match choice with
  | .always =>
    (clearMuteUntil st a.id,
      [NetReq.update
        ⟨a.id, a.source_key, a.statuses, a.categories, a.enabled, true⟩])
  | .timed c =>
    let st2 := setMuteUntil st a.id (choiceToUntilModal c now)
    if a.muted then
      (st2, [NetReq.update
        ⟨a.id, a.source_key, a.statuses, a.categories, a.enabled, false⟩])
    else (st2, [])

/-- The session-scoped state driving the alert effects of `src/App.tsx`:
`user` is whether a signed-in identity is present, `gen` counts poll-effect
(re)activations, `livePollGen` is the generation of the currently running
poll effect (`some g` exactly while the effect started as generation `g`
is live, i.e. its `cancelled` flag is still false), `intervalActive` is
whether the recurring `setInterval` handle is alive. -/
structure AppState where
  user : Bool
  gen : Nat
  livePollGen : Option Nat
  intervalActive : Bool
  store : Store
  queue : List Notif

/-- The asynchronous events that mutate the session state: a sign-in
(the poll effect re-runs with a fresh `cancelled = false` flag and a fresh
interval), a sign-out (the poll effect cleanup sets the old flag and clears
the interval, and the user effect clears the toast queue), and the
completion of the fetch of a poll task that started under generation
`taskGen`. -/
inductive Event
  | signIn
  | signOut
  | pollReturn (taskGen : Nat) (now : Int) (notes : List Notif)

/-- One step of the session state machine.  A completing poll task first
re-checks its captured `cancelled` flag — modelled as "its start generation
is still the live one" — and only then applies `run`; a stale or cancelled
task leaves the state untouched. -/
def stepEv (s : AppState) : Event → AppState
  | .signIn =>
    ⟨true, s.gen + 1, some (s.gen + 1), true, s.store, s.queue⟩
  | .signOut =>
    ⟨false, s.gen, none, false, s.store, []⟩
  | .pollReturn g now notes =>
    if s.livePollGen = some g then
      let r := run s.store now s.queue notes
      ⟨s.user, s.gen, s.livePollGen, s.intervalActive, r.2.1, r.1⟩
    else s

/-- Folding a list of events through the state machine. -/
def runTrace (s : AppState) (evs : List Event) : AppState :=
  evs.foldl stepEv s

/-- Whether the suppression entry stored under key `k` is active at `now`:
present, truthy, parsing to a finite positive value strictly beyond `now`.
This is the pure reading of the common branch structure of `getMuteUntil`
and `getTempDismissed`. -/
def entryActive (st : Store) (now : Int) (k : String) : Bool :=
  match lsGet st k with
  | none => false
  | some raw =>
    if raw = "" then false
    else
      match jsNum raw with
      | none => false
      | some n => if n ≤ 0 then false else decide (now < n)

/-- The pure admission predicate of one poll cycle, judged entirely against
the store as it was when the cycle started: the notification carries truthy
alert and delivery ids, `isMuted` would report false, and
`getTempDismissed` would report false. -/
def keep (st : Store) (now : Int) (n : Notif) : Bool :=
  truthyId n.alertId && truthyId n.deliveryId &&
    !(isMuted st now (n.alertId.getD "") n.alertMuted).1 &&
    !(getTempDismissed st now (n.alertId.getD "")).1

/-- A well-formed, unsuppressed sample notification for alert `A`,
delivery `d1`; used by concrete counterexamples and witnesses. -/
def notifA : Notif := ⟨some "A", false, some "d1"⟩

/-- A second sample notification, alert `B`, delivery `d2`. -/
def notifB : Notif := ⟨some "B", false, some "d2"⟩

/-- A sample Alert Directory row for alert `A`. -/
def alertA : Alert := ⟨"A", "texas", ["signed"], [], true, false⟩

/-- The sample row for alert `A` with the server-side muted flag set. -/
def alertAM : Alert := ⟨"A", "texas", ["signed"], [], true, true⟩

/-- A sample store holding an expired mute-until record and an unparsable
dismiss-until record for alert `A`. -/
def storeC6 : Store := [(LS_UNTIL "A", "100"), (DISMISS_UNTIL "A", "junk")]

section StoreLemmas

/-- Unfolding a lookup over a cons cell. -/
theorem lsGet_cons (a b : String) (st : Store) (k : String) :
    lsGet ((a, b) :: st) k = if a = k then some b else lsGet st k := by
  by_cases h : a = k
  · simp [lsGet, List.find?_cons, h]
  · simp [lsGet, List.find?_cons, h]

/-- Unfolding a removal over a cons cell. -/
theorem lsRemove_cons (a b : String) (st : Store) (k : String) :
    lsRemove ((a, b) :: st) k =
      if a = k then lsRemove st k else (a, b) :: lsRemove st k := by
  by_cases h : a = k
  · simp [lsRemove, List.filter_cons, h]
  · simp [lsRemove, List.filter_cons, h]

/-- Looking up the removed key yields nothing. -/
theorem lsGet_lsRemove_self (st : Store) (k : String) :
    lsGet (lsRemove st k) k = none := by
  induction st with
  | nil => rfl
  | cons p rest ih =>
    obtain ⟨a, b⟩ := p
    rw [lsRemove_cons]
    by_cases hp : a = k
    · rw [if_pos hp]; exact ih
    · rw [if_neg hp, lsGet_cons, if_neg hp]; exact ih

/-- Removing a key leaves every other key's binding intact. -/
theorem lsGet_lsRemove_ne (st : Store) (k k' : String) (h : k' ≠ k) :
    lsGet (lsRemove st k) k' = lsGet st k' := by
  induction st with
  | nil => rfl
  | cons p rest ih =>
    obtain ⟨a, b⟩ := p
    rw [lsRemove_cons]
    by_cases hp : a = k
    · rw [if_pos hp, ih, lsGet_cons,
        if_neg (fun hh : a = k' => h (hh.symm.trans hp))]
    · rw [if_neg hp, lsGet_cons, lsGet_cons, ih]

/-- Looking up a freshly written key yields the written value. -/
theorem lsGet_lsSet_self (st : Store) (k v : String) :
    lsGet (lsSet st k v) k = some v := by
  rw [lsSet, lsGet_cons, if_pos rfl]

/-- Writing one key leaves every other key's binding intact. -/
theorem lsGet_lsSet_ne (st : Store) (k k' v : String) (h : k' ≠ k) :
    lsGet (lsSet st k v) k' = lsGet st k' := by
  rw [lsSet, lsGet_cons, if_neg (fun hh => h hh.symm)]
  exact lsGet_lsRemove_ne st k k' h

end StoreLemmas

section SuppressionLemmas

/-- The reported half of `getMuteUntil` is the pure activity predicate of
the mute-until key. -/
theorem getMuteUntil_fst (st : Store) (now : Int) (a : String) :
    (getMuteUntil st now a).1.isSome = entryActive st now (LS_UNTIL a) := by
  unfold getMuteUntil entryActive
  cases h : lsGet st (LS_UNTIL a) with
  | none => rfl
  | some raw =>
    by_cases he : raw = ""
    · simp [he]
    · cases hj : jsNum raw with
      | none => simp [he, hj]
      | some n =>
        by_cases h0 : n ≤ 0
        · simp [he, hj, h0]
        · by_cases hn : n ≤ now
          · simp [he, hj, h0, hn, show ¬now < n by omega]
          · simp [he, hj, h0, hn, show now < n by omega]

/-- The reported half of `getTempDismissed` is the pure activity predicate
of the dismiss-until key. -/
theorem getTempDismissed_fst (st : Store) (now : Int) (a : String) :
    (getTempDismissed st now a).1 = entryActive st now (DISMISS_UNTIL a) := by
  unfold getTempDismissed entryActive
  cases h : lsGet st (DISMISS_UNTIL a) with
  | none => rfl
  | some raw =>
    by_cases he : raw = ""
    · simp [he]
    · cases hj : jsNum raw with
      | none => simp [he, hj]
      | some n =>
        by_cases h0 : n ≤ 0
        · simp [he, hj, h0]
        · by_cases hn : n ≤ now
          · simp [he, hj, h0, hn, show ¬now < n by omega]
          · simp [he, hj, h0, hn, show now < n by omega]

/-- The lazy deletion a `getMuteUntil` read may perform never changes any
key's activity verdict at the same instant: it only ever deletes an entry
that is already inactive. -/
theorem entryActive_getMuteUntil_snd (st : Store) (now : Int) (a k : String) :
    entryActive (getMuteUntil st now a).2 now k = entryActive st now k := by
  unfold getMuteUntil
  cases h : lsGet st (LS_UNTIL a) with
  | none => rfl
  | some raw =>
    by_cases he : raw = ""
    · simp [he]
    · cases hj : jsNum raw with
      | none => simp [he, hj]
      | some n =>
        by_cases h0 : n ≤ 0
        · simp [he, hj, h0]
        · by_cases hn : n ≤ now
          · simp only [he, hj, h0, hn, if_false, if_true, ite_true, ite_false]
            by_cases hk : k = LS_UNTIL a
            · subst hk
              unfold entryActive
              rw [lsGet_lsRemove_self, h]
              simp [he, hj, h0, show ¬now < n by omega]
            · unfold entryActive
              rw [lsGet_lsRemove_ne st _ k hk]
          · simp [he, hj, h0, hn]

/-- Same statement for the lazy deletion of a `getTempDismissed` read. -/
theorem entryActive_getTempDismissed_snd (st : Store) (now : Int)
    (a k : String) :
    entryActive (getTempDismissed st now a).2 now k = entryActive st now k := by
  unfold getTempDismissed
  cases h : lsGet st (DISMISS_UNTIL a) with
  | none => rfl
  | some raw =>
    by_cases he : raw = ""
    · simp [he]
    · cases hj : jsNum raw with
      | none => simp [he, hj]
      | some n =>
        by_cases h0 : n ≤ 0
        · simp [he, hj, h0]
        · by_cases hn : n ≤ now
          · simp only [he, hj, h0, hn, if_false, if_true, ite_true, ite_false]
            by_cases hk : k = DISMISS_UNTIL a
            · subst hk
              unfold entryActive
              rw [lsGet_lsRemove_self, h]
              simp [he, hj, h0, show ¬now < n by omega]
            · unfold entryActive
              rw [lsGet_lsRemove_ne st _ k hk]
          · simp [he, hj, h0, hn]

/-- The admission predicate, written against the pure activity predicate. -/
theorem keep_eq (st : Store) (now : Int) (n : Notif) :
    keep st now n =
      (truthyId n.alertId && truthyId n.deliveryId &&
        !(n.alertMuted || entryActive st now (LS_UNTIL (n.alertId.getD ""))) &&
        !entryActive st now (DISMISS_UNTIL (n.alertId.getD ""))) := by
  unfold keep isMuted
  by_cases hm : n.alertMuted
  · simp [hm, getTempDismissed_fst]
  · simp [hm, getMuteUntil_fst, getTempDismissed_fst]

/-- Admission verdicts are stable under the store evolution a
`getMuteUntil` read performs. -/
theorem keep_getMuteUntil_snd (st : Store) (now : Int) (a : String)
    (m : Notif) : keep (getMuteUntil st now a).2 now m = keep st now m := by
  rw [keep_eq, keep_eq, entryActive_getMuteUntil_snd,
    entryActive_getMuteUntil_snd]

/-- Admission verdicts are stable under the store evolution a
`getTempDismissed` read performs. -/
theorem keep_getTempDismissed_snd (st : Store) (now : Int) (a : String)
    (m : Notif) : keep (getTempDismissed st now a).2 now m = keep st now m := by
  rw [keep_eq, keep_eq, entryActive_getTempDismissed_snd,
    entryActive_getTempDismissed_snd]

end SuppressionLemmas

section PollLemmas

/-- The stateful left-to-right poll filter computes exactly the pure filter
by `keep` judged against the initial store: the lazy deletions the reads
perform along the way never change a later admission verdict. -/
theorem filterNotes_fst (st : Store) (now : Int) (l : List Notif) :
    (filterNotes st now l).1 = l.filter (keep st now) := by
  induction l generalizing st with
  | nil => rfl
  | cons n rest ih =>
    simp only [filterNotes]
    by_cases h1 : (truthyId n.alertId && truthyId n.deliveryId) = true
    · by_cases h2 : n.alertMuted = true
      · have hk : keep st now n = false := by
          simp [keep, isMuted, h2]
        simp only [h1, h2, if_true, List.filter_cons, hk, Bool.false_eq_true,
          if_false]
        exact ih st
      · rw [Bool.not_eq_true] at h2
        by_cases h3 : (getMuteUntil st now (n.alertId.getD "")).1.isSome = true
        · have hk : keep st now n = false := by
            simp [keep, isMuted, h2, h3]
          simp only [h1, h2, h3, if_true, Bool.false_eq_true, if_false,
            List.filter_cons, hk]
          rw [ih]
          exact List.filter_congr fun m _ => keep_getMuteUntil_snd st now _ m
        · rw [Bool.not_eq_true] at h3
          by_cases h4 :
            (getTempDismissed (getMuteUntil st now (n.alertId.getD "")).2 now
              (n.alertId.getD "")).1 = true
          · have hk : keep st now n = false := by
              have h4' :
                  (getTempDismissed st now (n.alertId.getD "")).1 = true := by
                rw [getTempDismissed_fst] at h4 ⊢
                rw [← entryActive_getMuteUntil_snd st now (n.alertId.getD "")]
                exact h4
              simp [keep, h4']
            simp only [h1, h2, h3, h4, if_true, Bool.false_eq_true, if_false,
              List.filter_cons, hk]
            rw [ih]
            refine List.filter_congr fun m _ => ?_
            rw [keep_getTempDismissed_snd, keep_getMuteUntil_snd]
          · rw [Bool.not_eq_true] at h4
            have hk : keep st now n = true := by
              have h4' :
                  (getTempDismissed st now (n.alertId.getD "")).1 = false := by
                rw [getTempDismissed_fst]
                rw [getTempDismissed_fst, entryActive_getMuteUntil_snd] at h4
                exact h4
              simp [keep, isMuted, h1, h2, h3, h4']
            simp only [h1, h2, h3, h4, if_true, Bool.false_eq_true, if_false,
              List.filter_cons, hk]
            rw [ih]
            refine congrArg (n :: ·) ?_
            refine List.filter_congr fun m _ => ?_
            rw [keep_getTempDismissed_snd, keep_getMuteUntil_snd]
    · rw [Bool.not_eq_true] at h1
      have hk : keep st now n = false := by
        simp only [keep, h1, Bool.false_and]
      simp only [h1, Bool.false_eq_true, if_false, List.filter_cons, hk]
      exact ih st

/-- The queue a poll cycle produces: the previous queue, unchanged, with
the pure survivors of the response — those admitted by `keep` and whose
delivery id is not already in the previous queue — appended in received
order. -/
theorem run_queue_eq (st : Store) (now : Int) (prev notes : List Notif) :
    (run st now prev notes).1 =
      prev ++ (notes.filter (keep st now)).filter
        (fun x => !((prev.map (fun y => y.deliveryId)).contains x.deliveryId)) := by
  have hf := filterNotes_fst st now notes
  simp only [run]
  by_cases hE : (filterNotes st now notes).1.isEmpty = true
  · rw [if_pos hE]
    rw [hf, List.isEmpty_iff] at hE
    show prev = _
    rw [hE, List.filter_nil, List.append_nil]
  · rw [if_neg hE]
    by_cases hN : ((filterNotes st now notes).1.filter
        (fun x =>
          !((prev.map (fun x => x.deliveryId)).contains x.deliveryId))).isEmpty
        = true
    · rw [if_pos hN]
      rw [hf, List.isEmpty_iff] at hN
      show prev = _
      rw [hN, List.append_nil]
    · rw [if_neg hN]
      show prev ++ _ = prev ++ _
      rw [hf]

end PollLemmas

section TraceLemmas

/-- A completing poll task never changes the generation counter. -/
theorem stepEv_pollReturn_gen (s : AppState) (tg : Nat) (now : Int)
    (notes : List Notif) :
    (stepEv s (Event.pollReturn tg now notes)).gen = s.gen := by
  simp only [stepEv]
  split <;> rfl

/-- A completing poll task never changes which generation is live. -/
theorem stepEv_pollReturn_live (s : AppState) (tg : Nat) (now : Int)
    (notes : List Notif) :
    (stepEv s (Event.pollReturn tg now notes)).livePollGen = s.livePollGen := by
  simp only [stepEv]
  split <;> rfl

/-- A poll task whose start generation is no longer the live one (its
captured `cancelled` flag was set) leaves the state entirely untouched. -/
theorem stepEv_pollReturn_of_ne (s : AppState) (tg : Nat) (now : Int)
    (notes : List Notif) (h : s.livePollGen ≠ some tg) :
    stepEv s (Event.pollReturn tg now notes) = s := by
  simp only [stepEv]
  rw [if_neg h]

/-- Unfolding one event of a trace. -/
theorem runTrace_cons (s : AppState) (e : Event) (evs : List Event) :
    runTrace s (e :: evs) = runTrace (stepEv s e) evs := rfl

/-- Along any trace, the generation counter never drops below a bound it
once reached, and every live generation assigned later is strictly above
that bound. -/
theorem runTrace_gen_lb (G : Nat) (evs : List Event) (t : AppState)
    (h1 : G ≤ t.gen) (h2 : ∀ g, t.livePollGen = some g → G < g) :
    G ≤ (runTrace t evs).gen ∧
      ∀ g, (runTrace t evs).livePollGen = some g → G < g := by
  induction evs generalizing t with
  | nil => exact ⟨h1, h2⟩
  | cons e rest ih =>
    rw [runTrace_cons]
    cases e with
    | signIn =>
      refine ih (stepEv t Event.signIn) (le_trans h1 (Nat.le_succ _)) ?_
      intro g hg
      have : some (t.gen + 1) = some g := hg
      have hgeq : t.gen + 1 = g := Option.some_injective _ this
      omega
    | signOut =>
      refine ih (stepEv t Event.signOut) h1 ?_
      intro g hg
      exact Option.noConfusion hg
    | pollReturn tg now notes =>
      refine ih (stepEv t (Event.pollReturn tg now notes)) ?_ ?_
      · rw [stepEv_pollReturn_gen]
        exact h1
      · intro g hg
        rw [stepEv_pollReturn_live] at hg
        exact h2 g hg

end TraceLemmas

section Claims

/-- C1, counterexample: the claim that a delivery identity already in the
queue is never appended again "including when a single poll response itself
contains two notifications with the same delivery identity" is false.  The
dedup set `have` is computed once from the previous queue, so a single poll
response carrying the same delivery id twice (here, two copies of a
well-formed unsuppressed notification with delivery `d1`, against an empty
queue and empty store) puts that id into the queue twice. -/
theorem C1_counterexample :
    ¬ (((run [] 0 [] [notifA, notifA]).1.map
        (fun x => x.deliveryId)).Nodup) := by decide

/-- C1, amended: provided no two survivors of a single poll response share
a delivery identity, processing a poll preserves the invariant that each
delivery identity occurs at most once in the Notification Queue — a
notification whose delivery identity already occurs in the queue is never
appended again. -/
theorem C1_queue_dedup (st : Store) (now : Int) (prev notes : List Notif)
    (hprev : (prev.map (fun x => x.deliveryId)).Nodup)
    (hpoll : ((notes.filter (keep st now)).map
      (fun x => x.deliveryId)).Nodup) :
    ((run st now prev notes).1.map (fun x => x.deliveryId)).Nodup := by
  rw [run_queue_eq, List.map_append, List.nodup_append]
  refine ⟨hprev, ?_, ?_⟩
  · exact List.Nodup.sublist
      (List.Sublist.map _ (List.filter_sublist _)) hpoll
  · rw [List.disjoint_left]
    intro i hi hmem
    rw [List.mem_map] at hmem
    obtain ⟨x, hx, hxi⟩ := hmem
    rw [List.mem_filter] at hx
    have hc := hx.2
    rw [Bool.not_eq_eq_eq_not] at hc
    have : x.deliveryId ∉ prev.map (fun y => y.deliveryId) := by
      simpa using hc
    exact this (hxi ▸ hi)

/-- C1, witness: a second poll overlapping the queued delivery `d1` leaves
the queue duplicate-free. -/
theorem C1_witness :
    ((run [] 0 [notifA] [notifA, notifB]).1.map
      (fun x => x.deliveryId)).Nodup :=
  C1_queue_dedup [] 0 [notifA] [notifA, notifB] (by decide) (by decide)

/-- C2: a processed poll result leaves the existing queue prefix unchanged
and appends, in received order, exactly the notifications that carry both
ids, are neither server-muted nor under an active mute-until or
dismiss-until record (the `keep` predicate, judged against the store at
cycle start), and whose delivery identity is not already in the queue. -/
theorem C2_poll_processing (st : Store) (now : Int) (prev notes : List Notif) :
    (run st now prev notes).1 =
      prev ++ (notes.filter (keep st now)).filter
        (fun x =>
          !((prev.map (fun y => y.deliveryId)).contains x.deliveryId)) :=
  run_queue_eq st now prev notes

/-- C3, counterexample: the claim that invoking permanent mute on `A`
always requests the directory write and purges the queue is false when `A`
is not in the Alert Directory: with an empty directory, the handler returns
early — the queued notification for `A` stays and no update request is
issued. -/
theorem C3_counterexample :
    notifA ∈ (onMuteAlert [] [] 0 [notifA] "A" MuteChoice.always).2.1 ∧
    notifA.alertId = some "A" ∧
    (onMuteAlert [] [] 0 [notifA] "A" MuteChoice.always).2.2 = [] := by
  decide

/-- C3, amended: for every alert identity that is present in the Alert
Directory, invoking permanent ("always") mute requests the directory set
the alert's server muted flag to true and immediately removes every queued
notification with that alert identity, leaving notifications for other
alerts unchanged and the local store untouched. -/
theorem C3_always_mute (dir : List Alert) (st : Store) (now : Int)
    (queue : List Notif) (alertId : String) (a : Alert)
    (h : dir.find? (fun x => x.id == alertId) = some a) :
    onMuteAlert dir st now queue alertId MuteChoice.always =
      (st, queue.filter (fun x => x.alertId != some alertId),
        [NetReq.update
          ⟨alertId, a.source_key, a.statuses, a.categories, a.enabled,
            true⟩]) := by
  simp only [onMuteAlert, h]

/-- C3, witness: always-muting `A` with `A` in the directory removes both
of its evaluation effects concretely. -/
theorem C3_witness :
    onMuteAlert [alertA] [] 0 [notifA, notifB] "A" MuteChoice.always =
      ([], [notifB],
        [NetReq.update ⟨"A", "texas", ["signed"], [], true, true⟩]) := by
  rw [C3_always_mute [alertA] [] 0 [notifA, notifB] "A" alertA (by decide)]
  decide

/-- C4: the acknowledge action removes exactly the notifications bearing
the acknowledged delivery identity, keeping every other entry in order,
and this removal is the same whether the Acknowledgement Sink call
succeeded or failed; the store is untouched (no suppression record is
written) and the one network request is the acknowledgement call itself. -/
theorem C4_ack_always_removes (st : Store) (queue : List Notif)
    (ackOk : Bool) (deliveryId : String) :
    onGotIt st queue ackOk deliveryId =
      (st, queue.filter (fun x => x.deliveryId != some deliveryId),
        [NetReq.ack deliveryId]) := by
  cases ackOk <;> rfl

/-- C5: sign-out clears the Notification Queue and cancels the recurring
poll interval, and a poll task started before the sign-out never mutates
any state afterwards: whatever events follow the sign-out, when the stale
task's fetch completes its cancellation re-check makes its effect a
no-op. -/
theorem C5_stale_poll (s : AppState) (evs : List Event) (tg : Nat)
    (now : Int) (notes : List Notif) (htg : tg ≤ s.gen) :
    (stepEv s Event.signOut).queue = [] ∧
    (stepEv s Event.signOut).intervalActive = false ∧
    stepEv (runTrace (stepEv s Event.signOut) evs)
        (Event.pollReturn tg now notes) =
      runTrace (stepEv s Event.signOut) evs := by
  refine ⟨rfl, rfl, ?_⟩
  have h := runTrace_gen_lb s.gen evs (stepEv s Event.signOut)
    (Nat.le_refl _) (fun g hg => Option.noConfusion hg)
  have hne :
      (runTrace (stepEv s Event.signOut) evs).livePollGen ≠ some tg := by
    intro hc
    have := h.2 tg hc
    omega
  exact stepEv_pollReturn_of_ne _ tg now notes hne

/-- C5, witness: a concrete signed-in state signs out, a fresh sign-in
happens, and the completion of the poll task of the old generation changes
nothing. -/
theorem C5_witness :
    (stepEv ⟨true, 0, some 0, true, [], [notifA]⟩ Event.signOut).queue = [] ∧
    (stepEv ⟨true, 0, some 0, true, [], [notifA]⟩
      Event.signOut).intervalActive = false ∧
    stepEv (runTrace (stepEv ⟨true, 0, some 0, true, [], [notifA]⟩
        Event.signOut) [Event.signIn]) (Event.pollReturn 0 5 [notifB]) =
      runTrace (stepEv ⟨true, 0, some 0, true, [], [notifA]⟩
        Event.signOut) [Event.signIn] :=
  C5_stale_poll ⟨true, 0, some 0, true, [], [notifA]⟩ [Event.signIn] 0 5
    [notifB] (by decide)

/-- C6: reading a mute-until or dismiss-until record reports not
suppressed, with the store unchanged, when the stored value is absent,
unparsable (non-finite) or non-positive; deletes the entry and reports
not suppressed when the parsed expiry is positive but at or before `now`;
and reports suppressed, with the store unchanged, when the expiry is
strictly beyond `now`. -/
theorem C6_lazy_expiry (st : Store) (now : Int) (a : String) :
    (lsGet st (LS_UNTIL a) = none → getMuteUntil st now a = (none, st)) ∧
    (∀ raw, lsGet st (LS_UNTIL a) = some raw → jsNum raw = none →
      getMuteUntil st now a = (none, st)) ∧
    (∀ raw n, lsGet st (LS_UNTIL a) = some raw → jsNum raw = some n →
      n ≤ 0 → getMuteUntil st now a = (none, st)) ∧
    (∀ raw n, lsGet st (LS_UNTIL a) = some raw → jsNum raw = some n →
      0 < n → n ≤ now →
      getMuteUntil st now a = (none, lsRemove st (LS_UNTIL a))) ∧
    (∀ raw n, lsGet st (LS_UNTIL a) = some raw → jsNum raw = some n →
      0 < n → now < n → getMuteUntil st now a = (some n, st)) ∧
    (lsGet st (DISMISS_UNTIL a) = none →
      getTempDismissed st now a = (false, st)) ∧
    (∀ raw, lsGet st (DISMISS_UNTIL a) = some raw → jsNum raw = none →
      getTempDismissed st now a = (false, st)) ∧
    (∀ raw n, lsGet st (DISMISS_UNTIL a) = some raw → jsNum raw = some n →
      n ≤ 0 → getTempDismissed st now a = (false, st)) ∧
    (∀ raw n, lsGet st (DISMISS_UNTIL a) = some raw → jsNum raw = some n →
      0 < n → n ≤ now →
      getTempDismissed st now a = (false, lsRemove st (DISMISS_UNTIL a))) ∧
    (∀ raw n, lsGet st (DISMISS_UNTIL a) = some raw → jsNum raw = some n →
      0 < n → now < n → getTempDismissed st now a = (true, st)) := by
  refine ⟨?_, ?_, ?_, ?_, ?_, ?_, ?_, ?_, ?_, ?_⟩
  · intro h
    simp only [getMuteUntil, h]
  · intro raw h hj
    by_cases he : raw = ""
    · subst he
      simp [getMuteUntil, h]
    · simp only [getMuteUntil, h, he, hj, if_false, ite_false]
  · intro raw n h hj h0
    by_cases he : raw = ""
    · subst he
      simp [getMuteUntil, h]
    · simp only [getMuteUntil, h, he, hj, h0, if_false, ite_false, if_true,
        ite_true]
  · intro raw n h hj h0 hn
    have he : raw ≠ "" := by
      intro e
      subst e
      rw [show jsNum "" = none from rfl] at hj
      cases hj
    have h0' : ¬n ≤ 0 := by omega
    simp only [getMuteUntil, h, he, hj, h0', hn, if_false, ite_false, if_true,
      ite_true]
  · intro raw n h hj h0 hn
    have he : raw ≠ "" := by
      intro e
      subst e
      rw [show jsNum "" = none from rfl] at hj
      cases hj
    have h0' : ¬n ≤ 0 := by omega
    have hn' : ¬n ≤ now := by omega
    simp only [getMuteUntil, h, he, hj, h0', hn', if_false, ite_false,
      if_true, ite_true]
  · intro h
    simp only [getTempDismissed, h]
  · intro raw h hj
    by_cases he : raw = ""
    · subst he
      simp [getTempDismissed, h]
    · simp only [getTempDismissed, h, he, hj, if_false, ite_false]
  · intro raw n h hj h0
    by_cases he : raw = ""
    · subst he
      simp [getTempDismissed, h]
    · simp only [getTempDismissed, h, he, hj, h0, if_false, ite_false,
        if_true, ite_true]
  · intro raw n h hj h0 hn
    have he : raw ≠ "" := by
      intro e
      subst e
      rw [show jsNum "" = none from rfl] at hj
      cases hj
    have h0' : ¬n ≤ 0 := by omega
    simp only [getTempDismissed, h, he, hj, h0', hn, if_false, ite_false,
      if_true, ite_true]
  · intro raw n h hj h0 hn
    have he : raw ≠ "" := by
      intro e
      subst e
      rw [show jsNum "" = none from rfl] at hj
      cases hj
    have h0' : ¬n ≤ 0 := by omega
    have hn' : ¬n ≤ now := by omega
    simp only [getTempDismissed, h, he, hj, h0', hn', if_false, ite_false,
      if_true, ite_true]

/-- C6, witness: reading an expired mute-until entry deletes it and
reports not suppressed; reading an unparsable dismiss-until entry reports
not suppressed and leaves the store alone. -/
theorem C6_witness :
    getMuteUntil storeC6 200 "A" = (none, [(DISMISS_UNTIL "A", "junk")]) ∧
    getTempDismissed storeC6 200 "A" = (false, storeC6) := by
  obtain ⟨m1, m2, m3, m4, m5, d1, d2, d3, d4, d5⟩ :=
    C6_lazy_expiry storeC6 200 "A"
  refine ⟨?_, ?_⟩
  · rw [m4 "100" 100 (by decide) (by decide) (by decide) (by decide)]
    decide
  · exact d2 "junk" (by decide) (by decide)

/-- C7: the close (×) action issues no network request, writes a
dismiss-until record for the alert equal to `now` plus five minutes
(touching no other key), and removes every queued notification with that
alert identity while keeping the rest in order. -/
theorem C7_close_temp (st : Store) (now : Int) (queue : List Notif)
    (alertId : String) :
    (onCloseTemp st now queue alertId).2.2 = [] ∧
    lsGet (onCloseTemp st now queue alertId).1 (DISMISS_UNTIL alertId) =
      some (toString (now + 5 * 60 * 1000)) ∧
    (∀ k, k ≠ DISMISS_UNTIL alertId →
      lsGet (onCloseTemp st now queue alertId).1 k = lsGet st k) ∧
    (onCloseTemp st now queue alertId).2.1 =
      queue.filter (fun x => x.alertId != some alertId) := by
  refine ⟨rfl, ?_, ?_, rfl⟩
  · exact lsGet_lsSet_self st (DISMISS_UNTIL alertId) _
  · intro k hk
    exact lsGet_lsSet_ne st (DISMISS_UNTIL alertId) k _ hk

/-- C7, witness: closing alert `A` at time 1000 writes the 5-minute
dismiss record, leaves alert `B` keys alone, and drops only `A`'s toast. -/
theorem C7_witness :
    (onCloseTemp [] 1000 [notifA, notifB] "A").2.2 = [] ∧
    lsGet (onCloseTemp [] 1000 [notifA, notifB] "A").1 (DISMISS_UNTIL "A") =
      some (toString ((1000 : Int) + 5 * 60 * 1000)) ∧
    lsGet (onCloseTemp [] 1000 [notifA, notifB] "A").1 (LS_UNTIL "B") =
      lsGet [] (LS_UNTIL "B") ∧
    (onCloseTemp [] 1000 [notifA, notifB] "A").2.1 = [notifB] := by
  obtain ⟨h1, h2, h3, h4⟩ := C7_close_temp [] 1000 [notifA, notifB] "A"
  refine ⟨h1, h2, h3 (LS_UNTIL "B") (by decide), ?_⟩
  rw [h4]
  decide

/-- C8: each timed mute choice writes an expiry of exactly `now` plus its
duration in milliseconds — 1h = 3600000, 8h = 28800000, 1d = 86400000,
1w = 604800000, 1mo = 2592000000 — the alerts-modal copy computes the same
values, and every supported choice's duration is one of exactly these
five. -/
theorem C8_durations (base : Int) :
    choiceToUntil TimedChoice.h1 base = base + 3600000 ∧
    choiceToUntil TimedChoice.h8 base = base + 28800000 ∧
    choiceToUntil TimedChoice.d1 base = base + 86400000 ∧
    choiceToUntil TimedChoice.w1 base = base + 604800000 ∧
    choiceToUntil TimedChoice.mo1 base = base + 2592000000 ∧
    (∀ c, choiceToUntilModal c base = choiceToUntil c base) ∧
    (∀ c, choiceToUntil c base - base ∈
      ([3600000, 28800000, 86400000, 604800000, 2592000000] : List Int)) := by
  refine ⟨?_, ?_, ?_, ?_, ?_, ?_, ?_⟩
  · show base + 1 * (60 * 60 * 1000) = base + 3600000
    norm_num
  · show base + 8 * (60 * 60 * 1000) = base + 28800000
    norm_num
  · show base + 24 * (60 * 60 * 1000) = base + 86400000
    norm_num
  · show base + 7 * 24 * (60 * 60 * 1000) = base + 604800000
    norm_num
  · show base + 30 * 24 * (60 * 60 * 1000) = base + 2592000000
    norm_num
  · intro c
    cases c <;> rfl
  · intro c
    cases c
    · rw [show choiceToUntil TimedChoice.h1 base - base = 3600000 from by
        simp only [choiceToUntil]; omega]
      simp
    · rw [show choiceToUntil TimedChoice.h8 base - base = 28800000 from by
        simp only [choiceToUntil]; omega]
      simp
    · rw [show choiceToUntil TimedChoice.d1 base - base = 86400000 from by
        simp only [choiceToUntil]; omega]
      simp
    · rw [show choiceToUntil TimedChoice.w1 base - base = 604800000 from by
        simp only [choiceToUntil]; omega]
      simp
    · rw [show choiceToUntil TimedChoice.mo1 base - base = 2592000000 from by
        simp only [choiceToUntil]; omega]
      simp

/-- C9, counterexample: the Persistent Key-Value Store keys are not
`mute_until_<alertId>` / `dismiss_until_<alertId>` — at alert id `a` the
actual keys differ from the claimed ones. -/
theorem C9_counterexample :
    LS_UNTIL "a" ≠ "mute_until_a" ∧
    DISMISS_UNTIL "a" ≠ "dismiss_until_a" := by
  decide

/-- C9, amended: the mute-until record lives under
`pw_alert_mute_until_<alertId>` and the dismiss-until record under
`pw_alert_dismiss_until_<alertId>`, each holding the decimal string
rendering of the epoch-millisecond expiry that was written. -/
theorem C9_storage_keys (a : String) (st : Store) (u now m : Int) :
    LS_UNTIL a = "pw_alert_mute_until_" ++ a ∧
    DISMISS_UNTIL a = "pw_alert_dismiss_until_" ++ a ∧
    lsGet (setMuteUntil st a u) (LS_UNTIL a) = some (toString u) ∧
    lsGet (setTempDismissed st now a m) (DISMISS_UNTIL a) =
      some (toString (now + m * 60 * 1000)) :=
  ⟨rfl, rfl, lsGet_lsSet_self _ _ _, lsGet_lsSet_self _ _ _⟩

/-- C10: applying a timed mute in the alerts-manager modal writes the
local mute-until record, and requests the Alert Directory clear the server
muted flag exactly when the row's server flag is currently set — a timed
mute replaces a permanent mute; with the flag clear, no directory write is
made. -/
theorem C10_timed_mute (st : Store) (now : Int) (a : Alert)
    (c : TimedChoice) :
    lsGet (applyMute st now a (MuteChoice.timed c)).1 (LS_UNTIL a.id) =
      some (toString (choiceToUntilModal c now)) ∧
    (a.muted = true → (applyMute st now a (MuteChoice.timed c)).2 =
      [NetReq.update
        ⟨a.id, a.source_key, a.statuses, a.categories, a.enabled,
          false⟩]) ∧
    (a.muted = false → (applyMute st now a (MuteChoice.timed c)).2 = []) := by
  refine ⟨?_, ?_, ?_⟩
  · cases ha : a.muted <;>
      simp [applyMute, ha, setMuteUntil, lsGet_lsSet_self]
  · intro h
    simp [applyMute, h]
  · intro h
    simp [applyMute, h]

/-- C10, witness: a one-hour mute on the server-muted row issues the
clearing write; the same mute on an unmuted row issues none. -/
theorem C10_witness :
    lsGet (applyMute [] 1000 alertAM (MuteChoice.timed TimedChoice.h1)).1
      (LS_UNTIL "A") = some (toString ((1000 : Int) + 1 * (60 * 60 * 1000))) ∧
    (applyMute [] 1000 alertAM (MuteChoice.timed TimedChoice.h1)).2 =
      [NetReq.update ⟨"A", "texas", ["signed"], [], true, false⟩] ∧
    (applyMute [] 1000 alertA (MuteChoice.timed TimedChoice.h1)).2 = [] := by
  refine ⟨(C10_timed_mute [] 1000 alertAM TimedChoice.h1).1,
    (C10_timed_mute [] 1000 alertAM TimedChoice.h1).2.1 rfl,
    (C10_timed_mute [] 1000 alertA TimedChoice.h1).2.2 rfl⟩

end Claims

end Policywatch
